import Mathlib

/-!
# Verification of gorm's batch-create callback pipeline

Shallow embedding of `callback_batch_create.go`: the three pipeline stages
`beforeBatchCreateCallback`, `updateTimeStampForBatchCreateCallback` and
`batchCreateCallback`, together with the field extractor
`FiledsWithIndexForBatch`.

Modelling choices:
* Go `interface{}` runtime values are a small universe `Value`; `isBlank`
  is the zero-value test used by the reflection helper of the same name.
* A collection element is either a structured record — a list of `Value`
  slots aligned positionally with the model's `StructField` list (nested
  name paths are modelled as one direct slot per schema field) — or a
  non-structured value, for which the extractor produces all-blank
  descriptors with no readable slot.
* `Scope` carries the pieces of gorm's scope that the callbacks touch:
  the (indirect) target value, the error slot, the accumulated SQL text
  and bound-variable list, the model metadata, the optional
  `gorm:insert_option` setting, the quoted table name and the
  affected-row count.  Collaborators that live outside this file's source
  (`Quote`, `AddToVars`, `Err`, the execution primitive, the
  `BeforeBatchCreate` extension point) are modelled from the spec's
  black-box contracts; each such definition says so in its doc comment.
* In-place mutation through `reflect.Value` references (timestamp
  stamping, default write-back) is modelled by explicit state passing:
  each stage returns the updated `Scope`.
-/

set_option autoImplicit false

namespace BatchCreate

/-- Runtime field values (Go `interface{}`): nil, integers, strings and
timestamps (`time.Time` modelled as a tick count). -/
inductive Value where
  | vnil : Value
  | vint (n : Int) : Value
  | vstr (s : String) : Value
  | vtime (t : Nat) : Value
deriving DecidableEq, Repr

/-- gorm's `isBlank`: a value is blank iff it equals its type's zero
value (nil pointer, 0, "", zero time). -/
def isBlank : Value → Bool
  | .vnil => true
  | .vint n => n == 0
  | .vstr s => s == ""
  | .vtime t => t == 0

/-- One schema field of the model's static metadata
(`GetModelStruct().StructFields`): logical name, database column name and
the persistence flags read by the batch callbacks.  `defaultTag` is
`TagSettings["DEFAULT"]`. -/
structure StructField where
  name : String
  dbName : String
  isNormal : Bool
  isIgnored : Bool
  isPrimaryKey : Bool
  hasDefaultValue : Bool
  defaultTag : String
deriving DecidableEq, Repr

instance : Inhabited StructField := ⟨⟨"", "", false, false, false, false, ""⟩⟩

/-- One collection element after `reflect.Indirect`: a structured record
(one `Value` slot per schema field, positionally) or anything else. -/
inductive Element where
  | structElem (vals : List Value) : Element
  | nonStruct : Element
deriving DecidableEq, Repr

/-- The scope's indirect value: a slice of elements, or some non-slice
value (whose payload the callbacks only use for error messages). -/
inductive ScopeValue where
  | slice (elems : List Element) : ScopeValue
  | nonSlice : ScopeValue
deriving DecidableEq, Repr

/-- The errors the three callbacks can record.  Each `fmt.Errorf` message
also interpolates the offending value; the constructor identity captures
the distinct message of each call site. -/
inductive GormError where
  | nonSliceValue (stage : String) : GormError
  | emptySlice : GormError
  | emptyColumns : GormError
  | execFailure : GormError
deriving DecidableEq, Repr

/-- The slice of gorm's `Scope` that the batch callbacks read and write. -/
structure Scope where
  value : ScopeValue
  modelStruct : List StructField
  err : Option GormError
  sql : String
  sqlVars : List Value
  insertOption : Option String
  quotedTableName : String
  rowsAffected : Nat
deriving DecidableEq, Repr

/-- `scope.HasError()`. -/
def Scope.hasError (s : Scope) : Bool := s.err.isSome

/-- Modelled from the spec: `scope.Err` records an error on the shared
context; the first error wins (§7: "the first error encountered is
recorded once on the shared context"). -/
def Scope.addErr (s : Scope) (e : GormError) : Scope :=
  match s.err with
  | none => { s with err := some e }
  | some _ => s

/-- gorm's `Field`: static metadata plus the element-bound slot
(`fieldValue`, `none` when the element is not a structured record and the
`reflect.Value` is invalid) and the blank flag computed at extraction
time. -/
structure Field where
  structField : StructField
  fieldValue : Option Value
  isBlank : Bool
deriving DecidableEq, Repr

/-- The structured-record branch of `FiledsWithIndexForBatch` (lines
178-187): pair every schema field with the element's corresponding slot
and compute its blank flag.  A slot missing from the record reads as an
invalid value; the source would fault on it, here it reads as a blank
nil. -/
def structFieldsToFields : List StructField → List Value → List Field
  | [], _ => []
  | sf :: ms, v :: vals =>
      ⟨sf, some v, isBlank v⟩ :: structFieldsToFields ms vals
  | sf :: ms, [] =>
      ⟨sf, some .vnil, true⟩ :: structFieldsToFields ms []

/-- Field descriptors of one element (lines 176-191): structured records
bind each slot; anything else yields all-blank descriptors
(`&Field{StructField: structField, IsBlank: true}`). -/
def elemFields (ms : List StructField) : Element → List Field
  | .structElem vals => structFieldsToFields ms vals
  | .nonStruct => ms.map fun sf => ⟨sf, none, true⟩

/-- `FiledsWithIndexForBatch` (lines 166-193): `nil` for a non-slice
scope value, `nil` for an out-of-bounds index, otherwise the field
descriptors of the element at `index`. -/
def FiledsWithIndexForBatch (scope : Scope) (index : Nat) : List Field :=
  match scope.value with
  | .nonSlice => []
  | .slice elems =>
      if h : index < elems.length then
        elemFields scope.modelStruct (elems.get ⟨index, h⟩)
      else []

/-- Modelled from the spec: the quoting/identifier helper (§6), rendered
as double-quoting. -/
def quote (s : String) : String := "\"" ++ s ++ "\""

/-- Modelled from the spec: `scope.AddToVars` appends the value to the
ordered bound-parameter sequence and returns the placeholder for position
`n` (§6's `p1,p2,...`). -/
def bindVar (n : Nat) : String := "$" ++ toString n

/-- Placeholders for `cnt` consecutive bound values appended when `start`
values were already bound. -/
def phList (start cnt : Nat) : List String :=
  (List.range cnt).map fun k => bindVar (start + k + 1)

/-- Modelled from the spec: gorm's `addExtraSpaceIfExist` (referenced at
line 154, defined outside this file): per its name, a non-empty trailing
clause is preceded by one separating space, an empty one adds nothing. -/
def addExtraSpaceIfExist (s : String) : String :=
  if s = "" then "" else " " ++ s

/-- Persistence filter of the column-derivation loop (line 90):
`field.IsNormal && !field.IsIgnored`. -/
def persistable (sf : StructField) : Bool := sf.isNormal && !sf.isIgnored

/-- Column list built from element 0's descriptors (lines 87-97):
quoted database column names of the normal, non-ignored fields. -/
def columnsFromFields (fields : List Field) : List String :=
  (fields.filter fun f => persistable f.structField).map
    fun f => quote f.structField.dbName

/-- The keys inserted into `existColumnNames` (line 96): logical names of
the normal, non-ignored fields; the map's lookup is list membership. -/
def existNamesFromFields (fields : List Field) : List String :=
  (fields.filter fun f => persistable f.structField).map
    fun f => f.structField.name

/-- The Value Resolver (lines 111-127) for one field slot: returns the
bound value and the slot's new content.
* not blank: bind the current value;
* blank, not primary key, has default: bind the `DEFAULT` tag constant
  and write it back to the slot (`field.Set(v)`, line 120);
* blank, not primary key, no default: bind the current (zero) value;
* blank primary key: bind nil (renders as `NULL`), slot untouched. -/
def resolveSlot (sf : StructField) (v : Value) : Value × Value :=
  if !(isBlank v) then (v, v)
  else if !sf.isPrimaryKey then
    if sf.hasDefaultValue then
      (Value.vstr sf.defaultTag, Value.vstr sf.defaultTag)
    else (v, v)
  else (.vnil, v)

/-- One row of the value loop (lines 105-134) on a structured record:
walk the schema fields alongside the element's slots; every field whose
name is in `existColumnNames` contributes one bound value resolved by
`resolveSlot` (write-backs update the slot in place).  Returns the
updated slots and the row's bound values in field order. -/
def processRowVals (en : List String) :
    List StructField → List Value → List Value × List Value
  | [], vals => (vals, [])
  | _ :: _, [] => ([], [])
  | sf :: ms, v :: vals =>
      let r := processRowVals en ms vals
      if en.contains sf.name then
        let bv := (resolveSlot sf v).1
        let v' := (resolveSlot sf v).2
        (v' :: r.1, bv :: r.2)
      else (v :: r.1, r.2)

/-- The value loop on a non-structured element: every descriptor is
blank with an invalid slot, so a matched primary key binds nil and a
matched defaulted field binds its default (`field.Set` on an invalid
value is a silent no-op); a matched field with neither would make the
source fault on `Interface()` — nil stands in for that unreachable
read. -/
def rowBoundNonStruct (en : List String) (ms : List StructField) : List Value :=
  (ms.filter fun sf => en.contains sf.name).map fun sf =>
    if sf.isPrimaryKey then .vnil
    else if sf.hasDefaultValue then .vstr sf.defaultTag
    else .vnil

/-- One iteration of the element loop (lines 105-134): the element after
its write-backs and the bound values it contributes. -/
def rowProcess (en : List String) (ms : List StructField) :
    Element → Element × List Value
  | .structElem vals =>
      let r := processRowVals en ms vals
      (.structElem r.1, r.2)
  | .nonStruct => (.nonStruct, rowBoundNonStruct en ms)

/-- The element loop (lines 105-134): processes elements in index order,
threading the bound-variable count for placeholder numbering.  Returns
the updated elements, the bound values appended to the scope's
bound-variable list, and one placeholder tuple per element. -/
def processAllRows (ms : List StructField) (en : List String) :
    List Element → Nat → List Element × List Value × List (List String)
  | [], _ => ([], [], [])
  | e :: es, nvars =>
      let r := rowProcess en ms e
      let phs := phList nvars r.2.length
      let rest := processAllRows ms en es (nvars + r.2.length)
      (r.1 :: rest.1, r.2 ++ rest.2.1, phs :: rest.2.2)

/-- The `VALUES` text (lines 136-140): each row's placeholders joined by
commas inside parentheses, rows joined by commas. -/
def renderValues (phss : List (List String)) : String :=
  String.intercalate "," (phss.map fun phs => "(" ++ String.intercalate "," phs ++ ")")

/-- Full SQL text of line 149-155's format string. -/
def renderInsertSQL (table : String) (columns : List String)
    (phss : List (List String)) (extraOption : String) : String :=
  "INSERT INTO " ++ table ++ " (" ++ String.intercalate "," columns ++
    ") VALUES " ++ renderValues phss ++ addExtraSpaceIfExist extraOption

/-- `beforeBatchCreateCallback` (lines 19-34).  The object-supplied
`BeforeBatchCreate` extension point (invoked once, on element 0, when the
slice is non-empty) is the parameter `hook`; per the documented calling
convention it may touch the whole scope. -/
def beforeBatchCreateCallback (hook : Scope → Scope) (scope : Scope) : Scope :=
  if scope.hasError then scope
  else
    match scope.value with
    | .nonSlice => scope.addErr (.nonSliceValue "beforeBatchCreateCallback")
    | .slice elems => if elems.length > 0 then hook scope else scope

/-- Timestamp stamping of one element's slots (lines 51-60): a blank
field named `CreatedAt` or `UpdatedAt` is set to the shared `now`; every
other slot is untouched. -/
def stampVals (now : Nat) : List StructField → List Value → List Value
  | [], vals => vals
  | _ :: _, [] => []
  | sf :: ms, v :: vals =>
      (if isBlank v && (sf.name == "CreatedAt" || sf.name == "UpdatedAt")
       then Value.vtime now else v) :: stampVals now ms vals

/-- Timestamp stamping of one element: non-structured elements are
untouched (`field.Set` on an invalid value is a no-op). -/
def stampElement (ms : List StructField) (now : Nat) : Element → Element
  | .structElem vals => .structElem (stampVals now ms vals)
  | .nonStruct => .nonStruct

/-- `updateTimeStampForBatchCreateCallback` (lines 37-63): `now` is the
single `NowFunc()` value captured once per invocation (line 39). -/
def updateTimeStampForBatchCreateCallback (now : Nat) (scope : Scope) : Scope :=
  if scope.hasError then scope
  else
    match scope.value with
    | .nonSlice =>
        scope.addErr (.nonSliceValue "updateTimeStampForBatchCreateCallback")
    | .slice elems =>
        { scope with
            value := .slice (elems.map (stampElement scope.modelStruct now)) }

/-- `batchCreateCallback` (lines 66-164).  `exec` is the spec §6
execution primitive: SQL text and bound parameters in, affected-row
count or failure out.  The SQL text and bound variables are recorded on
the scope (lines 129 and 149) before execution, so they survive an
execution failure. -/
def batchCreateCallback (exec : String → List Value → Option Nat)
    (scope : Scope) : Scope :=
  if scope.hasError then scope
  else
    match scope.value with
    | .nonSlice => scope.addErr (.nonSliceValue "batchCreateCallback")
    | .slice elems =>
        if elems.length = 0 then scope.addErr .emptySlice
        else
          let fields := FiledsWithIndexForBatch scope 0
          let columns := columnsFromFields fields
          let en := existNamesFromFields fields
          if columns.length = 0 then scope.addErr .emptyColumns
          else
            let r := processAllRows scope.modelStruct en elems scope.sqlVars.length
            let extraOption := scope.insertOption.getD ""
            let sql := renderInsertSQL scope.quotedTableName columns r.2.2 extraOption
            let scope1 := { scope with
              value := .slice r.1
              sql := sql
              sqlVars := scope.sqlVars ++ r.2.1 }
            match exec sql (scope.sqlVars ++ r.2.1) with
            | some n => { scope1 with rowsAffected := n }
            | none => scope1.addErr .execFailure

/-- The registered batch-create pipeline (lines 11-17) without the
out-of-scope transaction wrappers: pre-batch hook, timestamp hook,
batch-insert hook, in registration order on the shared scope. -/
def batchCreatePipeline (hook : Scope → Scope) (now : Nat)
    (exec : String → List Value → Option Nat) (scope : Scope) : Scope :=
  batchCreateCallback exec
    (updateTimeStampForBatchCreateCallback now
      (beforeBatchCreateCallback hook scope))

/-- Well-formedness of one element against the model metadata: a
structured record has one slot per schema field (the homogeneity the
batch relies on); non-structured elements carry no slots. -/
def Element.wfb (ms : List StructField) : Element → Bool
  | .structElem vals => vals.length == ms.length
  | .nonStruct => true

/-- The column list as a function of the model metadata alone. -/
def msColumns (ms : List StructField) : List String :=
  (ms.filter persistable).map fun sf => quote sf.dbName

/-- The `existColumnNames` keys as a function of the model metadata
alone. -/
def msNames (ms : List StructField) : List String :=
  (ms.filter persistable).map fun sf => sf.name

/-! ### Helper lemmas -/

theorem structFieldsToFields_map_structField (ms : List StructField) :
    ∀ vals : List Value,
      (structFieldsToFields ms vals).map (fun f => f.structField) = ms := by
  induction ms with
  | nil => intro vals; rfl
  | cons sf ms ih =>
      intro vals
      cases vals with
      | nil => simp [structFieldsToFields, ih]
      | cons v vals => simp [structFieldsToFields, ih]

theorem elemFields_map_structField (ms : List StructField) (e : Element) :
    (elemFields ms e).map (fun f => f.structField) = ms := by
  cases e with
  | structElem vals => exact structFieldsToFields_map_structField ms vals
  | nonStruct => simp [elemFields, List.map_map, Function.comp_def]

theorem columnsFromFields_eq (fields : List Field) :
    columnsFromFields fields =
      ((fields.map (fun f => f.structField)).filter persistable).map
        (fun sf => quote sf.dbName) := by
  rw [columnsFromFields, List.filter_map, List.map_map]
  rfl

theorem existNamesFromFields_eq (fields : List Field) :
    existNamesFromFields fields =
      ((fields.map (fun f => f.structField)).filter persistable).map
        (fun sf => sf.name) := by
  rw [existNamesFromFields, List.filter_map, List.map_map]
  rfl

theorem columnsFromFields_elemFields (ms : List StructField) (e : Element) :
    columnsFromFields (elemFields ms e) = msColumns ms := by
  rw [columnsFromFields_eq, elemFields_map_structField, msColumns]

theorem existNamesFromFields_elemFields (ms : List StructField) (e : Element) :
    existNamesFromFields (elemFields ms e) = msNames ms := by
  rw [existNamesFromFields_eq, elemFields_map_structField, msNames]

theorem FiledsWithIndexForBatch_cons (scope : Scope) (e : Element)
    (rest : List Element) (hval : scope.value = .slice (e :: rest)) :
    FiledsWithIndexForBatch scope 0 = elemFields scope.modelStruct e := by
  simp [FiledsWithIndexForBatch, hval]

/-- With pairwise-distinct field names, a name is an `existColumnNames`
key exactly when its own field is persistable. -/
theorem msNames_contains_eq (ms : List StructField)
    (hnodup : (ms.map (fun sf => sf.name)).Nodup) (sf : StructField)
    (hsf : sf ∈ ms) : (msNames ms).contains sf.name = persistable sf := by
  cases hp : persistable sf with
  | true =>
      have hmem : sf.name ∈ msNames ms := by
        rw [msNames]
        exact List.mem_map.2 ⟨sf, List.mem_filter.2 ⟨hsf, hp⟩, rfl⟩
      simpa using hmem
  | false =>
      rw [Bool.eq_false_iff]
      intro hcontains
      have hmem : sf.name ∈ msNames ms := by simpa using hcontains
      rw [msNames] at hmem
      rcases List.mem_map.1 hmem with ⟨x, hx, hxname⟩
      rcases List.mem_filter.1 hx with ⟨hxms, hxp⟩
      have : x = sf := List.inj_on_of_nodup_map hnodup hxms hsf hxname
      rw [this] at hxp
      rw [hxp] at hp
      exact Bool.true_eq_false.mp hp

/-- With pairwise-distinct field names, filtering by `existColumnNames`
membership is the same as filtering by persistability — on any sublist of
the schema. -/
theorem filter_msNames_congr (ms sub : List StructField)
    (hnodup : (ms.map (fun sf => sf.name)).Nodup)
    (hsub : ∀ sf ∈ sub, sf ∈ ms) :
    sub.filter (fun sf => (msNames ms).contains sf.name) =
      sub.filter persistable := by
  apply List.filter_congr
  intro sf hsf
  exact msNames_contains_eq ms hnodup sf (hsub sf hsf)

theorem processRowVals_fst_length (en : List String) :
    ∀ (ms : List StructField) (vals : List Value),
      vals.length = ms.length →
      ((processRowVals en ms vals).1).length = vals.length := by
  intro ms
  induction ms with
  | nil =>
      intro vals h
      rw [List.length_eq_zero.1 h]
      rfl
  | cons sf ms ih =>
      intro vals h
      cases vals with
      | nil => simp at h
      | cons v vals =>
          have h' : vals.length = ms.length := by simpa using h
          by_cases hc : sf.name ∈ en
          · simp [processRowVals, hc, ih vals h']
          · simp [processRowVals, hc, ih vals h']

theorem processRowVals_snd_length (en : List String) :
    ∀ (ms : List StructField) (vals : List Value),
      vals.length = ms.length →
      ((processRowVals en ms vals).2).length =
        ((ms.filter fun sf => en.contains sf.name)).length := by
  intro ms
  induction ms with
  | nil =>
      intro vals h
      rw [List.length_eq_zero.1 h]
      rfl
  | cons sf ms ih =>
      intro vals h
      cases vals with
      | nil => simp at h
      | cons v vals =>
          have h' : vals.length = ms.length := by simpa using h
          by_cases hc : sf.name ∈ en
          · simp [processRowVals, hc, List.filter_cons, ih vals h']
          · simp [processRowVals, hc, List.filter_cons, ih vals h']

theorem rowBoundNonStruct_length (en : List String) (ms : List StructField) :
    (rowBoundNonStruct en ms).length =
      ((ms.filter fun sf => en.contains sf.name)).length := by
  simp [rowBoundNonStruct]

theorem rowProcess_snd_length (en : List String) (ms : List StructField)
    (e : Element) (hwf : Element.wfb ms e = true) :
    ((rowProcess en ms e).2).length =
      ((ms.filter fun sf => en.contains sf.name)).length := by
  cases e with
  | structElem vals =>
      have h : vals.length = ms.length := by
        simpa [Element.wfb] using hwf
      simpa [rowProcess] using processRowVals_snd_length en ms vals h
  | nonStruct => simpa [rowProcess] using rowBoundNonStruct_length en ms

theorem processAllRows_fst (ms : List StructField) (en : List String) :
    ∀ (es : List Element) (n : Nat),
      (processAllRows ms en es n).1 =
        es.map fun e => (rowProcess en ms e).1 := by
  intro es
  induction es with
  | nil => intro n; rfl
  | cons e es ih => intro n; simp [processAllRows, ih]

theorem processAllRows_snd (ms : List StructField) (en : List String) :
    ∀ (es : List Element) (n : Nat),
      (processAllRows ms en es n).2.1 =
        (es.map fun e => (rowProcess en ms e).2).flatten := by
  intro es
  induction es with
  | nil => intro n; rfl
  | cons e es ih => intro n; simp [processAllRows, ih]

theorem processAllRows_phss_length (ms : List StructField) (en : List String) :
    ∀ (es : List Element) (n : Nat),
      (processAllRows ms en es n).2.2.length = es.length := by
  intro es
  induction es with
  | nil => intro n; rfl
  | cons e es ih => intro n; simp [processAllRows, ih]

theorem processAllRows_phss_mem (ms : List StructField) (en : List String) :
    ∀ (es : List Element) (n : Nat),
      ∀ t ∈ (processAllRows ms en es n).2.2,
        ∃ e ∈ es, t.length = ((rowProcess en ms e).2).length := by
  intro es
  induction es with
  | nil => intro n t ht; simp [processAllRows] at ht
  | cons e es ih =>
      intro n t ht
      simp only [processAllRows, List.mem_cons] at ht
      cases ht with
      | inl h =>
          refine ⟨e, List.mem_cons_self e es, ?_⟩
          rw [h]
          simp [phList]
      | inr h =>
          rcases ih _ t h with ⟨e', he', hlen⟩
          exact ⟨e', List.mem_cons_of_mem e he', hlen⟩

theorem phList_length (start cnt : Nat) : (phList start cnt).length = cnt := by
  simp [phList]

theorem addErr_of_none (s : Scope) (e : GormError) (h : s.err = none) :
    s.addErr e = { s with err := some e } := by
  rw [Scope.addErr, h]

theorem flatten_getD_const {α : Type} (d : α) :
    ∀ (L : List (List α)) (C : Nat), (∀ l ∈ L, l.length = C) →
      ∀ (i pos : Nat), i < L.length → pos < C →
        L.flatten.getD (i * C + pos) d = (L.getD i []).getD pos d := by
  intro L
  induction L with
  | nil => intro C _ i pos hi _; simp at hi
  | cons l L ih =>
      intro C hC i pos hi hpos
      have hlen : l.length = C := hC l (List.mem_cons_self l L)
      cases i with
      | zero =>
          have hpl : pos < l.length := by rw [hlen]; exact hpos
          simp only [List.flatten_cons, Nat.zero_mul, Nat.zero_add,
            List.getD_cons_zero]
          exact List.getD_append l L.flatten d pos hpl
      | succ i =>
          have hidx : (i + 1) * C + pos = l.length + (i * C + pos) := by
            rw [hlen]; ring
          have hge : l.length ≤ (i + 1) * C + pos := by omega
          rw [List.flatten_cons, List.getD_append_right l L.flatten d _ hge]
          have hsub : (i + 1) * C + pos - l.length = i * C + pos := by omega
          rw [hsub, List.getD_cons_succ]
          exact ih C (fun l' hl' => hC l' (List.mem_cons_of_mem l hl'))
            i pos (by simpa using hi) hpos

theorem take_filter_length_lt (p : StructField → Bool) (ms : List StructField)
    (j : Nat) (hj : j < ms.length) (hp : p (ms.getD j default) = true) :
    ((ms.take j).filter p).length < (ms.filter p).length := by
  conv_rhs => rw [← List.take_append_drop j ms]
  rw [List.filter_append, List.length_append]
  rw [List.drop_eq_getElem_cons hj, List.filter_cons]
  rw [List.getD_eq_getElem ms default hj] at hp
  rw [hp]
  simp

/-- Positional characterisation of one row of the value loop: the field
at schema position `j`, when its name is an `existColumnNames` key,
contributes the `resolveSlot` bound value at the position given by the
matched fields before it, and its slot afterwards holds the
`resolveSlot` write-back. -/
theorem processRowVals_getD (en : List String) :
    ∀ (j : Nat) (ms : List StructField) (vals : List Value),
      j < ms.length → vals.length = ms.length →
      en.contains (ms.getD j default).name = true →
      ((processRowVals en ms vals).2).getD
          (((ms.take j).filter fun sf => en.contains sf.name)).length .vnil
        = (resolveSlot (ms.getD j default) (vals.getD j .vnil)).1
      ∧ ((processRowVals en ms vals).1).getD j .vnil
        = (resolveSlot (ms.getD j default) (vals.getD j .vnil)).2 := by
  intro j
  induction j with
  | zero =>
      intro ms vals hj hlen hc
      cases ms with
      | nil => simp at hj
      | cons sf ms =>
          cases vals with
          | nil => simp at hlen
          | cons v vals =>
              have hm : sf.name ∈ en := by
                simpa using hc
              simp [processRowVals, hm]
  | succ j ih =>
      intro ms vals hj hlen hc
      cases ms with
      | nil => simp at hj
      | cons sf ms =>
          cases vals with
          | nil => simp at hlen
          | cons v vals =>
              have hj' : j < ms.length := by simpa using hj
              have hlen' : vals.length = ms.length := by simpa using hlen
              have hc' : en.contains (ms.getD j default).name = true := by
                simpa using hc
              have hih := ih ms vals hj' hlen' hc'
              by_cases hm : sf.name ∈ en
              · constructor
                · simpa [processRowVals, hm, List.take_succ_cons,
                    List.filter_cons] using hih.1
                · simpa [processRowVals, hm] using hih.2
              · constructor
                · simpa [processRowVals, hm, List.take_succ_cons,
                    List.filter_cons] using hih.1
                · simpa [processRowVals, hm] using hih.2

theorem stampVals_length (now : Nat) :
    ∀ (ms : List StructField) (vals : List Value),
      (stampVals now ms vals).length = vals.length := by
  intro ms
  induction ms with
  | nil => intro vals; rfl
  | cons sf ms ih =>
      intro vals
      cases vals with
      | nil => rfl
      | cons v vals => simp [stampVals, ih]

theorem stampVals_getD (now : Nat) :
    ∀ (j : Nat) (ms : List StructField) (vals : List Value),
      j < ms.length → j < vals.length →
      (stampVals now ms vals).getD j .vnil =
        (if isBlank (vals.getD j .vnil)
            && ((ms.getD j default).name == "CreatedAt"
                || (ms.getD j default).name == "UpdatedAt")
         then Value.vtime now else vals.getD j .vnil) := by
  intro j
  induction j with
  | zero =>
      intro ms vals hj hv
      cases ms with
      | nil => simp at hj
      | cons sf ms =>
          cases vals with
          | nil => simp at hv
          | cons v vals => simp [stampVals]
  | succ j ih =>
      intro ms vals hj hv
      cases ms with
      | nil => simp at hj
      | cons sf ms =>
          cases vals with
          | nil => simp at hv
          | cons v vals =>
              have hj' : j < ms.length := by simpa using hj
              have hv' : j < vals.length := by simpa using hv
              simpa [stampVals] using ih ms vals hj' hv'

theorem stampVals_getD_beyond (now : Nat) :
    ∀ (ms : List StructField) (vals : List Value) (j : Nat) (d : Value),
      ms.length ≤ j →
      (stampVals now ms vals).getD j d = vals.getD j d := by
  intro ms
  induction ms with
  | nil => intro vals j d _; rfl
  | cons sf ms ih =>
      intro vals j d hj
      cases vals with
      | nil => simp [stampVals]
      | cons v vals =>
          cases j with
          | zero => simp at hj
          | succ j =>
              have hj' : ms.length ≤ j := by simpa using hj
              simpa [stampVals] using ih vals j d hj'

/-- Shape of a successful precondition pass of `batchCreateCallback`:
whatever the execution primitive does, the result carries the assembled
SQL text, the bound-variable list extended by the element loop, and the
written-back elements. -/
theorem batchCreateCallback_builds (exec : String → List Value → Option Nat)
    (scope : Scope) (elems : List Element)
    (herr : scope.err = none) (hval : scope.value = .slice elems)
    (hne : elems.length ≠ 0)
    (hcol : (columnsFromFields (FiledsWithIndexForBatch scope 0)).length ≠ 0) :
    ∃ (ra : Nat) (er : Option GormError),
      batchCreateCallback exec scope =
        { scope with
            value := .slice (processAllRows scope.modelStruct
              (existNamesFromFields (FiledsWithIndexForBatch scope 0)) elems
              scope.sqlVars.length).1
            sql := renderInsertSQL scope.quotedTableName
              (columnsFromFields (FiledsWithIndexForBatch scope 0))
              (processAllRows scope.modelStruct
                (existNamesFromFields (FiledsWithIndexForBatch scope 0)) elems
                scope.sqlVars.length).2.2
              (scope.insertOption.getD "")
            sqlVars := scope.sqlVars ++ (processAllRows scope.modelStruct
              (existNamesFromFields (FiledsWithIndexForBatch scope 0)) elems
              scope.sqlVars.length).2.1
            rowsAffected := ra
            err := er } := by
  rw [batchCreateCallback]
  simp only [Scope.hasError, herr, Option.isSome_none, Bool.false_eq_true,
    if_false, hval]
  rw [if_neg hne, if_neg hcol]
  rcases hx : exec (renderInsertSQL scope.quotedTableName
      (columnsFromFields (FiledsWithIndexForBatch scope 0))
      (processAllRows scope.modelStruct
        (existNamesFromFields (FiledsWithIndexForBatch scope 0)) elems
        scope.sqlVars.length).2.2
      (scope.insertOption.getD ""))
      (scope.sqlVars ++ (processAllRows scope.modelStruct
        (existNamesFromFields (FiledsWithIndexForBatch scope 0)) elems
        scope.sqlVars.length).2.1) with _ | n
  · exact ⟨scope.rowsAffected, some .execFailure, by simp [Scope.addErr]⟩
  · exact ⟨n, none, by simp⟩

/-! ### Claim theorems -/

/-- Claim C5: the timestamp-stamping stage uses a single shared `now`
per invocation; for every element exactly the currently-blank fields
named `CreatedAt` or `UpdatedAt` are set to that shared value, every
other slot (non-blank, differently named, or beyond the schema) is left
unchanged, so all elements stamped in one batch receive the identical
timestamp `Value.vtime now`. -/
theorem claim5_timestamp_stamping (scope : Scope) (now : Nat)
    (elems : List Element) (herr : scope.err = none)
    (hval : scope.value = .slice elems) :
    updateTimeStampForBatchCreateCallback now scope
      = { scope with
            value := .slice (elems.map (stampElement scope.modelStruct now)) }
    ∧ (∀ (ms : List StructField) (vals : List Value),
        (stampVals now ms vals).length = vals.length)
    ∧ (∀ (ms : List StructField) (vals : List Value) (j : Nat),
        j < ms.length → j < vals.length →
        (stampVals now ms vals).getD j .vnil =
          (if isBlank (vals.getD j .vnil)
              && ((ms.getD j default).name == "CreatedAt"
                  || (ms.getD j default).name == "UpdatedAt")
           then Value.vtime now else vals.getD j .vnil))
    ∧ (∀ (ms : List StructField) (vals : List Value) (j : Nat) (d : Value),
        ms.length ≤ j → (stampVals now ms vals).getD j d = vals.getD j d) := by
  refine ⟨?_, stampVals_length now,
    fun ms vals j hj hv => stampVals_getD now j ms vals hj hv,
    fun ms vals j d hj => stampVals_getD_beyond now ms vals j d hj⟩
  rw [updateTimeStampForBatchCreateCallback]
  simp [Scope.hasError, herr, hval]

/-- Claim C6: on a collection of length 0, `batchCreateCallback` records
the empty-collection error; on a non-empty collection whose first
element yields zero normal, non-ignored columns it records the
empty-column-set error; both errors are distinct, and in both cases the
scope is otherwise untouched and the result never depends on the
execution primitive — no statement is assembled or executed. -/
theorem claim6_precondition_errors (exec : String → List Value → Option Nat)
    (scope : Scope) (herr : scope.err = none) :
    (scope.value = .slice [] →
      batchCreateCallback exec scope = { scope with err := some .emptySlice })
    ∧ (∀ (e : Element) (rest : List Element),
        scope.value = .slice (e :: rest) →
        columnsFromFields (FiledsWithIndexForBatch scope 0) = [] →
        batchCreateCallback exec scope
          = { scope with err := some .emptyColumns })
    ∧ GormError.emptySlice ≠ GormError.emptyColumns := by
  refine ⟨?_, ?_, by simp⟩
  · intro hval
    simp [batchCreateCallback, Scope.hasError, herr, hval, Scope.addErr]
  · intro e rest hval hcols
    have hf : FiledsWithIndexForBatch scope 0 = elemFields scope.modelStruct e :=
      FiledsWithIndexForBatch_cons scope e rest hval
    have hcols' : columnsFromFields (elemFields scope.modelStruct e) = [] := by
      rw [← hf]; exact hcols
    simp [batchCreateCallback, Scope.hasError, herr, hval, hf, hcols',
      Scope.addErr]

/-- Claim C7: each pipeline stage first checks the shared error slot and
is a strict no-op when an error is already recorded — independently of
the extension point, the captured `now` and the execution primitive —
and therefore the whole registered pipeline leaves the scope untouched:
the first recorded error wins and no SQL is built or executed. -/
theorem claim7_skip_on_prior_error (hook : Scope → Scope) (now : Nat)
    (exec : String → List Value → Option Nat) (scope : Scope)
    (e : GormError) (herr : scope.err = some e) :
    beforeBatchCreateCallback hook scope = scope
    ∧ updateTimeStampForBatchCreateCallback now scope = scope
    ∧ batchCreateCallback exec scope = scope
    ∧ batchCreatePipeline hook now exec scope = scope := by
  have h1 : beforeBatchCreateCallback hook scope = scope := by
    simp [beforeBatchCreateCallback, Scope.hasError, herr]
  have h2 : updateTimeStampForBatchCreateCallback now scope = scope := by
    simp [updateTimeStampForBatchCreateCallback, Scope.hasError, herr]
  have h3 : batchCreateCallback exec scope = scope := by
    simp [batchCreateCallback, Scope.hasError, herr]
  exact ⟨h1, h2, h3, by rw [batchCreatePipeline, h1, h2, h3]⟩

/-- Claim C8: on a non-slice target value each of the three stages
behaves identically: it records its input-shape error on the context
(each call site's message naming its own stage) and changes nothing
else, invoking neither the extension point nor the execution
primitive. -/
theorem claim8_non_slice_error (hook : Scope → Scope) (now : Nat)
    (exec : String → List Value → Option Nat) (scope : Scope)
    (herr : scope.err = none) (hval : scope.value = .nonSlice) :
    beforeBatchCreateCallback hook scope
      = { scope with
            err := some (.nonSliceValue "beforeBatchCreateCallback") }
    ∧ updateTimeStampForBatchCreateCallback now scope
      = { scope with
            err := some (.nonSliceValue "updateTimeStampForBatchCreateCallback") }
    ∧ batchCreateCallback exec scope
      = { scope with err := some (.nonSliceValue "batchCreateCallback") } := by
  refine ⟨?_, ?_, ?_⟩
  · simp [beforeBatchCreateCallback, Scope.hasError, herr, hval, Scope.addErr]
  · simp [updateTimeStampForBatchCreateCallback, Scope.hasError, herr, hval,
      Scope.addErr]
  · simp [batchCreateCallback, Scope.hasError, herr, hval, Scope.addErr]

/-- Claim C10: the field extractor returns the empty descriptor list —
recording no error and touching no element — both when the scope's
indirect value is not a slice and when the index is out of bounds. -/
theorem claim10_extractor_defensive (scope : Scope) (i : Nat) :
    (scope.value = .nonSlice → FiledsWithIndexForBatch scope i = [])
    ∧ (∀ elems : List Element, scope.value = .slice elems →
        elems.length ≤ i → FiledsWithIndexForBatch scope i = []) := by
  constructor
  · intro h
    simp [FiledsWithIndexForBatch, h]
  · intro elems h hlen
    have : ¬ i < elems.length := by omega
    simp [FiledsWithIndexForBatch, h, this]

theorem FiledsWithIndexForBatch_insertOption (scope : Scope)
    (o : Option String) (i : Nat) :
    FiledsWithIndexForBatch { scope with insertOption := o } i
      = FiledsWithIndexForBatch scope i := rfl

/-- Claim C9: when the context carries the `gorm:insert_option` setting,
the generated SQL is the option-free statement with the setting's string
appended verbatim after the `VALUES` clause (separated by one space via
`addExtraSpaceIfExist`); when the setting is absent, the statement ends
at the `VALUES` clause with nothing appended. -/
theorem claim9_insert_option (exec exec' : String → List Value → Option Nat)
    (scope : Scope) (elems : List Element) (s : String)
    (herr : scope.err = none) (hval : scope.value = .slice elems)
    (hne : elems ≠ [])
    (hcol : columnsFromFields (FiledsWithIndexForBatch scope 0) ≠ []) :
    (batchCreateCallback exec { scope with insertOption := some s }).sql
      = (batchCreateCallback exec' { scope with insertOption := none }).sql
        ++ addExtraSpaceIfExist s
    ∧ (batchCreateCallback exec' { scope with insertOption := none }).sql
      = "INSERT INTO " ++ scope.quotedTableName ++ " ("
        ++ String.intercalate ","
            (columnsFromFields (FiledsWithIndexForBatch scope 0))
        ++ ") VALUES "
        ++ renderValues ((processAllRows scope.modelStruct
            (existNamesFromFields (FiledsWithIndexForBatch scope 0)) elems
            scope.sqlVars.length).2.2) := by
  have hne' : elems.length ≠ 0 := fun h => hne (List.length_eq_zero.1 h)
  have hcol' : (columnsFromFields (FiledsWithIndexForBatch scope 0)).length ≠ 0 := by
    intro h
    exact hcol (List.length_eq_zero.1 h)
  obtain ⟨ra1, er1, h1⟩ := batchCreateCallback_builds exec
    { scope with insertOption := some s } elems herr hval hne' hcol'
  obtain ⟨ra2, er2, h2⟩ := batchCreateCallback_builds exec'
    { scope with insertOption := none } elems herr hval hne' hcol'
  rw [h1, h2]
  constructor
  · simp [FiledsWithIndexForBatch_insertOption, renderInsertSQL,
      addExtraSpaceIfExist, String.append_assoc]
  · simp [FiledsWithIndexForBatch_insertOption, renderInsertSQL,
      addExtraSpaceIfExist]

/-- Claim C1: under the preconditions (non-empty homogeneous collection,
at least one persistable column, pairwise-distinct field names), the SQL
built by `batchCreateCallback` is the `INSERT` statement rendered from
one placeholder tuple per collection element, the tuple count equals the
collection length, and every tuple has exactly one placeholder per
Column Set column. -/
theorem claim1_tuple_counts (exec : String → List Value → Option Nat)
    (scope : Scope) (elems : List Element)
    (herr : scope.err = none) (hval : scope.value = .slice elems)
    (hne : elems ≠ [])
    (hwf : ∀ e ∈ elems, Element.wfb scope.modelStruct e = true)
    (hnodup : (scope.modelStruct.map fun sf => sf.name).Nodup)
    (hcol : columnsFromFields (FiledsWithIndexForBatch scope 0) ≠ []) :
    (batchCreateCallback exec scope).sql
      = renderInsertSQL scope.quotedTableName
          (columnsFromFields (FiledsWithIndexForBatch scope 0))
          ((processAllRows scope.modelStruct
            (existNamesFromFields (FiledsWithIndexForBatch scope 0)) elems
            scope.sqlVars.length).2.2)
          (scope.insertOption.getD "")
    ∧ ((processAllRows scope.modelStruct
        (existNamesFromFields (FiledsWithIndexForBatch scope 0)) elems
        scope.sqlVars.length).2.2).length = elems.length
    ∧ ∀ t ∈ (processAllRows scope.modelStruct
        (existNamesFromFields (FiledsWithIndexForBatch scope 0)) elems
        scope.sqlVars.length).2.2,
        t.length = (columnsFromFields (FiledsWithIndexForBatch scope 0)).length := by
  have hne' : elems.length ≠ 0 := fun h => hne (List.length_eq_zero.1 h)
  have hcol' : (columnsFromFields (FiledsWithIndexForBatch scope 0)).length ≠ 0 := by
    intro h
    exact hcol (List.length_eq_zero.1 h)
  obtain ⟨ra, er, hb⟩ := batchCreateCallback_builds exec scope elems herr hval
    hne' hcol'
  refine ⟨by rw [hb], processAllRows_phss_length _ _ _ _, ?_⟩
  rcases elems with _ | ⟨e0, rest⟩
  · exact absurd rfl hne
  have hf := FiledsWithIndexForBatch_cons scope e0 rest hval
  have hen : existNamesFromFields (FiledsWithIndexForBatch scope 0)
      = msNames scope.modelStruct := by
    rw [hf, existNamesFromFields_elemFields]
  have hcols : columnsFromFields (FiledsWithIndexForBatch scope 0)
      = msColumns scope.modelStruct := by
    rw [hf, columnsFromFields_elemFields]
  intro t ht
  obtain ⟨e, he, hlen⟩ := processAllRows_phss_mem _ _ _ _ t ht
  rw [hlen, hen, rowProcess_snd_length _ _ _ (hwf e he), hcols, msColumns,
    List.length_map]
  rw [filter_msNames_congr scope.modelStruct scope.modelStruct hnodup
    (fun _ h => h)]

/-- Claim C2: the Column Set is derived from element 0's descriptors and
equals a function of the model metadata alone — replacing every later
element leaves it unchanged — and, with pairwise-distinct field names,
every row of a homogeneous collection binds its values in exactly that
column order, contributing exactly one bound value per column. -/
theorem claim2_column_set_invariant (scope : Scope) (e0 : Element)
    (rest : List Element) (hval : scope.value = .slice (e0 :: rest))
    (hnodup : (scope.modelStruct.map fun sf => sf.name).Nodup)
    (hwf : ∀ e ∈ e0 :: rest, Element.wfb scope.modelStruct e = true) :
    columnsFromFields (FiledsWithIndexForBatch scope 0)
      = msColumns scope.modelStruct
    ∧ (∀ rest' : List Element,
        columnsFromFields (FiledsWithIndexForBatch
          { scope with value := .slice (e0 :: rest') } 0)
          = columnsFromFields (FiledsWithIndexForBatch scope 0))
    ∧ ((scope.modelStruct.filter fun sf =>
          (existNamesFromFields (FiledsWithIndexForBatch scope 0)).contains
            sf.name).map fun sf => quote sf.dbName)
        = columnsFromFields (FiledsWithIndexForBatch scope 0)
    ∧ ∀ e ∈ e0 :: rest,
        ((rowProcess (existNamesFromFields (FiledsWithIndexForBatch scope 0))
          scope.modelStruct e).2).length
          = (columnsFromFields (FiledsWithIndexForBatch scope 0)).length := by
  have hf := FiledsWithIndexForBatch_cons scope e0 rest hval
  have hcols : columnsFromFields (FiledsWithIndexForBatch scope 0)
      = msColumns scope.modelStruct := by
    rw [hf, columnsFromFields_elemFields]
  have hen : existNamesFromFields (FiledsWithIndexForBatch scope 0)
      = msNames scope.modelStruct := by
    rw [hf, existNamesFromFields_elemFields]
  refine ⟨hcols, ?_, ?_, ?_⟩
  · intro rest'
    have hval' : ({ scope with value := .slice (e0 :: rest') } : Scope).value
        = .slice (e0 :: rest') := rfl
    have hf' := FiledsWithIndexForBatch_cons
      { scope with value := .slice (e0 :: rest') } e0 rest' hval'
    rw [hf', hcols]
    exact columnsFromFields_elemFields scope.modelStruct e0
  · rw [hen, hcols,
      filter_msNames_congr scope.modelStruct scope.modelStruct hnodup
        (fun _ h => h)]
    rfl
  · intro e he
    rw [hen, rowProcess_snd_length _ _ _ (hwf e he), hcols, msColumns,
      List.length_map]
    rw [filter_msNames_congr scope.modelStruct scope.modelStruct hnodup
      (fun _ h => h)]

/-- `getD` over `map` below the length. -/
theorem getD_map_of_lt {A B : Type} (f : A → B) (l : List A) (i : Nat)
    (h : i < l.length) (d : B) (d' : A) :
    (l.map f).getD i d = f (l.getD i d') := by
  rw [List.getD_eq_getElem (l.map f) d (by rw [List.length_map]; exact h)]
  rw [List.getElem_map, ← List.getD_eq_getElem l d' h]

/-- Bridge for the per-field claims: under the batch preconditions, for
any schema position `j` whose field is persistable and any element
position `i` holding a structured record, the bound parameter that
`batchCreateCallback` places at row `i`, column position `j`, is the
`resolveSlot` bound value, and the element's slot after the call holds
the `resolveSlot` write-back. -/
theorem batch_bound_and_writeback (exec : String → List Value → Option Nat)
    (scope : Scope) (elems : List Element) (i j : Nat) (vals : List Value)
    (herr : scope.err = none) (hval : scope.value = .slice elems)
    (hwf : ∀ e ∈ elems, Element.wfb scope.modelStruct e = true)
    (hnodup : (scope.modelStruct.map fun sf => sf.name).Nodup)
    (hcol : columnsFromFields (FiledsWithIndexForBatch scope 0) ≠ [])
    (hi : i < elems.length)
    (hei : elems.getD i .nonStruct = .structElem vals)
    (hj : j < scope.modelStruct.length)
    (hpers : persistable (scope.modelStruct.getD j default) = true) :
    ((batchCreateCallback exec scope).sqlVars).getD
        (scope.sqlVars.length
          + i * (columnsFromFields (FiledsWithIndexForBatch scope 0)).length
          + ((scope.modelStruct.take j).filter persistable).length) .vnil
      = (resolveSlot (scope.modelStruct.getD j default)
          (vals.getD j .vnil)).1
    ∧ ∃ elems', (batchCreateCallback exec scope).value = .slice elems'
        ∧ elems'.length = elems.length
        ∧ ∃ vals', elems'.getD i .nonStruct = .structElem vals'
            ∧ vals'.length = vals.length
            ∧ vals'.getD j .vnil
              = (resolveSlot (scope.modelStruct.getD j default)
                  (vals.getD j .vnil)).2 := by
  have hne' : elems.length ≠ 0 := by omega
  have hcol' : (columnsFromFields (FiledsWithIndexForBatch scope 0)).length ≠ 0 := by
    intro h
    exact hcol (List.length_eq_zero.1 h)
  obtain ⟨ra, er, hb⟩ := batchCreateCallback_builds exec scope elems herr hval
    hne' hcol'
  obtain ⟨e0, rest, helems⟩ : ∃ e0 rest, elems = e0 :: rest := by
    cases elems with
    | nil => simp at hi
    | cons e0 rest => exact ⟨e0, rest, rfl⟩
  have hval0 : scope.value = .slice (e0 :: rest) := by rw [hval, helems]
  have hf : FiledsWithIndexForBatch scope 0 = elemFields scope.modelStruct e0 :=
    FiledsWithIndexForBatch_cons scope e0 rest hval0
  have hen : existNamesFromFields (FiledsWithIndexForBatch scope 0)
      = msNames scope.modelStruct := by
    rw [hf, existNamesFromFields_elemFields]
  have hcols : columnsFromFields (FiledsWithIndexForBatch scope 0)
      = msColumns scope.modelStruct := by
    rw [hf, columnsFromFields_elemFields]
  have hC : (columnsFromFields (FiledsWithIndexForBatch scope 0)).length
      = (scope.modelStruct.filter persistable).length := by
    rw [hcols, msColumns, List.length_map]
  -- facts about the element at position i
  have hmem : elems.getD i .nonStruct ∈ elems := by
    rw [List.getD_eq_getElem elems .nonStruct hi]
    exact List.getElem_mem hi
  have hwfi : Element.wfb scope.modelStruct (.structElem vals) = true := by
    rw [← hei]
    exact hwf _ hmem
  have hvlen : vals.length = scope.modelStruct.length := by
    simpa [Element.wfb] using hwfi
  -- facts about the schema field at position j
  have hsfmem : scope.modelStruct.getD j default ∈ scope.modelStruct := by
    rw [List.getD_eq_getElem scope.modelStruct default hj]
    exact List.getElem_mem hj
  have hcontains : (existNamesFromFields (FiledsWithIndexForBatch scope 0)).contains
      (scope.modelStruct.getD j default).name = true := by
    rw [hen, msNames_contains_eq scope.modelStruct hnodup _ hsfmem]
    exact hpers
  have hrow := processRowVals_getD
    (existNamesFromFields (FiledsWithIndexForBatch scope 0)) j
    scope.modelStruct vals hj hvlen hcontains
  have hpos : ((scope.modelStruct.take j).filter fun sf =>
        (existNamesFromFields (FiledsWithIndexForBatch scope 0)).contains sf.name).length
      = ((scope.modelStruct.take j).filter persistable).length := by
    rw [hen, filter_msNames_congr scope.modelStruct (scope.modelStruct.take j)
      hnodup (fun sf h => List.mem_of_mem_take h)]
  have hposlt : ((scope.modelStruct.take j).filter persistable).length
      < (scope.modelStruct.filter persistable).length :=
    take_filter_length_lt persistable scope.modelStruct j hj hpers
  -- the per-row bound lists all have the Column Set's length
  have hrowlen : ∀ l ∈ elems.map (fun e =>
      (rowProcess (existNamesFromFields (FiledsWithIndexForBatch scope 0))
        scope.modelStruct e).2), l.length
      = (scope.modelStruct.filter persistable).length := by
    intro l hl
    rcases List.mem_map.1 hl with ⟨e, he, rfl⟩
    rw [rowProcess_snd_length _ _ _ (hwf e he), hen,
      filter_msNames_congr scope.modelStruct scope.modelStruct hnodup
        (fun _ h => h)]
  constructor
  · -- the bound parameter
    rw [hb]
    show (scope.sqlVars ++ (processAllRows scope.modelStruct
        (existNamesFromFields (FiledsWithIndexForBatch scope 0)) elems
        scope.sqlVars.length).2.1).getD _ _ = _
    rw [Nat.add_assoc]
    rw [List.getD_append_right scope.sqlVars _ .vnil _ (Nat.le_add_right _ _),
      Nat.add_sub_cancel_left, processAllRows_snd, hC]
    rw [flatten_getD_const .vnil _ _ hrowlen i
      (((scope.modelStruct.take j).filter persistable).length)
      (by rw [List.length_map]; exact hi) hposlt]
    rw [List.getD_eq_getElem _ [] (by rw [List.length_map]; exact hi),
      List.getElem_map, ← List.getD_eq_getElem elems .nonStruct hi, hei]
    show ((processRowVals (existNamesFromFields (FiledsWithIndexForBatch scope 0))
        scope.modelStruct vals).2).getD _ _ = _
    rw [← hpos]
    exact hrow.1
  · -- the write-back
    refine ⟨(processAllRows scope.modelStruct
      (existNamesFromFields (FiledsWithIndexForBatch scope 0)) elems
      scope.sqlVars.length).1, by rw [hb], ?_, ?_⟩
    · rw [processAllRows_fst, List.length_map]
    refine ⟨(processRowVals (existNamesFromFields (FiledsWithIndexForBatch scope 0))
      scope.modelStruct vals).1, ?_, ?_, hrow.2⟩
    · rw [processAllRows_fst, getD_map_of_lt _ elems i hi _ .nonStruct, hei]
      rfl
    · rw [processRowVals_fst_length _ _ _ hvlen]

/-- Claim C3: for a Column Set field that is blank, not the primary key
and has a configured default, `batchCreateCallback` binds the configured
default constant as that row's parameter for that column and writes the
same default back onto the in-memory element's field, so after the call
the element's slot equals the bound default. -/
theorem claim3_default_write_back (exec : String → List Value → Option Nat)
    (scope : Scope) (elems : List Element) (i j : Nat) (vals : List Value)
    (herr : scope.err = none) (hval : scope.value = .slice elems)
    (hwf : ∀ e ∈ elems, Element.wfb scope.modelStruct e = true)
    (hnodup : (scope.modelStruct.map fun sf => sf.name).Nodup)
    (hcol : columnsFromFields (FiledsWithIndexForBatch scope 0) ≠ [])
    (hi : i < elems.length)
    (hei : elems.getD i .nonStruct = .structElem vals)
    (hj : j < scope.modelStruct.length)
    (hpers : persistable (scope.modelStruct.getD j default) = true)
    (hblank : isBlank (vals.getD j .vnil) = true)
    (hpk : (scope.modelStruct.getD j default).isPrimaryKey = false)
    (hdef : (scope.modelStruct.getD j default).hasDefaultValue = true) :
    ((batchCreateCallback exec scope).sqlVars).getD
        (scope.sqlVars.length
          + i * (columnsFromFields (FiledsWithIndexForBatch scope 0)).length
          + ((scope.modelStruct.take j).filter persistable).length) .vnil
      = Value.vstr (scope.modelStruct.getD j default).defaultTag
    ∧ ∃ elems', (batchCreateCallback exec scope).value = .slice elems'
        ∧ elems'.length = elems.length
        ∧ ∃ vals', elems'.getD i .nonStruct = .structElem vals'
            ∧ vals'.length = vals.length
            ∧ vals'.getD j .vnil
              = Value.vstr (scope.modelStruct.getD j default).defaultTag := by
  have hres : resolveSlot (scope.modelStruct.getD j default) (vals.getD j .vnil)
      = (Value.vstr (scope.modelStruct.getD j default).defaultTag,
         Value.vstr (scope.modelStruct.getD j default).defaultTag) := by
    simp only [resolveSlot, hblank, hpk, hdef]
    simp
  obtain ⟨h1, h2⟩ := batch_bound_and_writeback exec scope elems i j vals herr
    hval hwf hnodup hcol hi hei hj hpers
  rw [hres] at h1 h2
  exact ⟨h1, h2⟩

/-- Claim C4: for a blank primary-key field of the Column Set the bound
parameter for that column is the absent/nil value (rendering as `NULL`),
whatever the field's zero value and even when the field also carries a
configured default — the primary-key branch takes precedence and no
default is bound or written back: the slot is left unchanged. -/
theorem claim4_blank_pk_binds_null (exec : String → List Value → Option Nat)
    (scope : Scope) (elems : List Element) (i j : Nat) (vals : List Value)
    (herr : scope.err = none) (hval : scope.value = .slice elems)
    (hwf : ∀ e ∈ elems, Element.wfb scope.modelStruct e = true)
    (hnodup : (scope.modelStruct.map fun sf => sf.name).Nodup)
    (hcol : columnsFromFields (FiledsWithIndexForBatch scope 0) ≠ [])
    (hi : i < elems.length)
    (hei : elems.getD i .nonStruct = .structElem vals)
    (hj : j < scope.modelStruct.length)
    (hpers : persistable (scope.modelStruct.getD j default) = true)
    (hblank : isBlank (vals.getD j .vnil) = true)
    (hpk : (scope.modelStruct.getD j default).isPrimaryKey = true) :
    ((batchCreateCallback exec scope).sqlVars).getD
        (scope.sqlVars.length
          + i * (columnsFromFields (FiledsWithIndexForBatch scope 0)).length
          + ((scope.modelStruct.take j).filter persistable).length) .vnil
      = Value.vnil
    ∧ ∃ elems', (batchCreateCallback exec scope).value = .slice elems'
        ∧ elems'.length = elems.length
        ∧ ∃ vals', elems'.getD i .nonStruct = .structElem vals'
            ∧ vals'.length = vals.length
            ∧ vals'.getD j .vnil = vals.getD j .vnil := by
  have hres : resolveSlot (scope.modelStruct.getD j default) (vals.getD j .vnil)
      = (Value.vnil, vals.getD j .vnil) := by
    simp only [resolveSlot, hblank, hpk]
    simp
  obtain ⟨h1, h2⟩ := batch_bound_and_writeback exec scope elems i j vals herr
    hval hwf hnodup hcol hi hei hj hpers
  rw [hres] at h1 h2
  exact ⟨h1, h2⟩

/-! ### Concrete sample data for the witnesses -/

/-- Sample schema: an autoincrement-style primary key that also carries a
default, a defaulted name column, a timestamp column, and an ignored
field. -/
def wMs : List StructField :=
  [⟨"Id", "id", true, false, true, true, "7"⟩,
   ⟨"Name", "name", true, false, false, true, "guest"⟩,
   ⟨"CreatedAt", "created_at", true, false, false, false, ""⟩,
   ⟨"Skip", "skip", false, true, false, false, ""⟩]

/-- Slots of the first sample element: blank id, blank name, blank
timestamp, non-blank ignored field. -/
def wVals0 : List Value := [.vint 0, .vstr "", .vtime 0, .vint 9]

def wE0 : Element := .structElem wVals0

def wE1 : Element := .structElem [.vint 5, .vstr "bob", .vtime 3, .vint 1]

/-- A sample execution primitive reporting two affected rows. -/
def wExec : String → List Value → Option Nat := fun _ _ => some 2

def wHook : Scope → Scope := fun s => s

def wScope : Scope :=
  ⟨.slice [wE0, wE1], wMs, none, "", [], none, "\"users\"", 0⟩

def wEmptyScope : Scope :=
  ⟨.slice [], wMs, none, "", [], none, "\"users\"", 0⟩

def wNoColMs : List StructField :=
  [⟨"Skip", "skip", false, true, false, false, ""⟩]

def wNoColScope : Scope :=
  ⟨.slice [.structElem [.vint 1]], wNoColMs, none, "", [], none, "\"users\"", 0⟩

def wErrScope : Scope :=
  ⟨.slice [wE0], wMs, some (.nonSliceValue "beforeBatchCreateCallback"), "",
   [], none, "\"users\"", 0⟩

def wNonSliceScope : Scope :=
  ⟨.nonSlice, wMs, none, "", [], none, "\"users\"", 0⟩

/-! ### Witnesses -/

/-- Witness for C1 on the two-element sample. -/
theorem claim1_tuple_counts_witness :
    ([wE0, wE1] : List Element) ≠ []
    ∧ (wScope.modelStruct.map fun sf => sf.name).Nodup
    ∧ (batchCreateCallback wExec wScope).sql
        = renderInsertSQL wScope.quotedTableName
            (columnsFromFields (FiledsWithIndexForBatch wScope 0))
            ((processAllRows wScope.modelStruct
              (existNamesFromFields (FiledsWithIndexForBatch wScope 0))
              [wE0, wE1] wScope.sqlVars.length).2.2)
            (wScope.insertOption.getD "")
    ∧ ((processAllRows wScope.modelStruct
        (existNamesFromFields (FiledsWithIndexForBatch wScope 0))
        [wE0, wE1] wScope.sqlVars.length).2.2).length
        = ([wE0, wE1] : List Element).length
    ∧ (((processAllRows wScope.modelStruct
        (existNamesFromFields (FiledsWithIndexForBatch wScope 0))
        [wE0, wE1] wScope.sqlVars.length).2.2).getD 0 []).length
        = (columnsFromFields (FiledsWithIndexForBatch wScope 0)).length := by
  have h := claim1_tuple_counts wExec wScope [wE0, wE1] rfl rfl (by decide)
    (by decide) (by decide) (by decide)
  exact ⟨by decide, by decide, h.1, h.2.1, h.2.2 _ (by decide)⟩

/-- Witness for C2 on the two-element sample. -/
theorem claim2_column_set_invariant_witness :
    (wScope.modelStruct.map fun sf => sf.name).Nodup
    ∧ columnsFromFields (FiledsWithIndexForBatch wScope 0)
        = msColumns wScope.modelStruct
    ∧ columnsFromFields (FiledsWithIndexForBatch
        { wScope with value := .slice [wE0] } 0)
        = columnsFromFields (FiledsWithIndexForBatch wScope 0)
    ∧ ((wScope.modelStruct.filter fun sf =>
          (existNamesFromFields (FiledsWithIndexForBatch wScope 0)).contains
            sf.name).map fun sf => quote sf.dbName)
        = columnsFromFields (FiledsWithIndexForBatch wScope 0)
    ∧ ((rowProcess (existNamesFromFields (FiledsWithIndexForBatch wScope 0))
        wScope.modelStruct wE1).2).length
        = (columnsFromFields (FiledsWithIndexForBatch wScope 0)).length := by
  have h := claim2_column_set_invariant wScope wE0 [wE1] rfl (by decide)
    (by decide)
  exact ⟨by decide, h.1, h.2.1 [], h.2.2.1, h.2.2.2 wE1 (by decide)⟩

/-- Witness for C3: the blank, defaulted, non-primary-key `Name` field
of row 0 (schema position 1). -/
theorem claim3_default_write_back_witness :
    isBlank (wVals0.getD 1 .vnil) = true
    ∧ (wScope.modelStruct.getD 1 default).isPrimaryKey = false
    ∧ (wScope.modelStruct.getD 1 default).hasDefaultValue = true
    ∧ ((batchCreateCallback wExec wScope).sqlVars).getD
        (wScope.sqlVars.length
          + 0 * (columnsFromFields (FiledsWithIndexForBatch wScope 0)).length
          + ((wScope.modelStruct.take 1).filter persistable).length) .vnil
        = Value.vstr (wScope.modelStruct.getD 1 default).defaultTag
    ∧ ∃ elems', (batchCreateCallback wExec wScope).value = .slice elems'
        ∧ elems'.length = ([wE0, wE1] : List Element).length
        ∧ ∃ vals', elems'.getD 0 .nonStruct = .structElem vals'
            ∧ vals'.length = wVals0.length
            ∧ vals'.getD 1 .vnil
              = Value.vstr (wScope.modelStruct.getD 1 default).defaultTag := by
  have h := claim3_default_write_back wExec wScope [wE0, wE1] 0 1 wVals0 rfl
    rfl (by decide) (by decide) (by decide) (by decide) (by decide)
    (by decide) (by decide) (by decide) (by decide) (by decide)
  exact ⟨by decide, by decide, by decide, h.1, h.2⟩

/-- Witness for C4: the blank primary-key `Id` field of row 0 (schema
position 0), which also carries a configured default that must be
ignored. -/
theorem claim4_blank_pk_binds_null_witness :
    isBlank (wVals0.getD 0 .vnil) = true
    ∧ (wScope.modelStruct.getD 0 default).isPrimaryKey = true
    ∧ (wScope.modelStruct.getD 0 default).hasDefaultValue = true
    ∧ ((batchCreateCallback wExec wScope).sqlVars).getD
        (wScope.sqlVars.length
          + 0 * (columnsFromFields (FiledsWithIndexForBatch wScope 0)).length
          + ((wScope.modelStruct.take 0).filter persistable).length) .vnil
        = Value.vnil
    ∧ ∃ elems', (batchCreateCallback wExec wScope).value = .slice elems'
        ∧ elems'.length = ([wE0, wE1] : List Element).length
        ∧ ∃ vals', elems'.getD 0 .nonStruct = .structElem vals'
            ∧ vals'.length = wVals0.length
            ∧ vals'.getD 0 .vnil = wVals0.getD 0 .vnil := by
  have h := claim4_blank_pk_binds_null wExec wScope [wE0, wE1] 0 0 wVals0 rfl
    rfl (by decide) (by decide) (by decide) (by decide) (by decide)
    (by decide) (by decide) (by decide) (by decide)
  exact ⟨by decide, by decide, by decide, h.1, h.2⟩

/-- Witness for C5 on the two-element sample with `now = 42`. -/
theorem claim5_timestamp_stamping_witness :
    wScope.err = none
    ∧ updateTimeStampForBatchCreateCallback 42 wScope
        = { wScope with
              value := .slice ([wE0, wE1].map (stampElement wScope.modelStruct 42)) } := by
  exact ⟨rfl, (claim5_timestamp_stamping wScope 42 [wE0, wE1] rfl rfl).1⟩

/-- Witness for C6: the empty-slice sample and the no-persistable-column
sample. -/
theorem claim6_precondition_errors_witness :
    wEmptyScope.err = none
    ∧ batchCreateCallback wExec wEmptyScope
        = { wEmptyScope with err := some .emptySlice }
    ∧ batchCreateCallback wExec wNoColScope
        = { wNoColScope with err := some .emptyColumns }
    ∧ GormError.emptySlice ≠ GormError.emptyColumns := by
  refine ⟨rfl, (claim6_precondition_errors wExec wEmptyScope rfl).1 rfl, ?_,
    (claim6_precondition_errors wExec wEmptyScope rfl).2.2⟩
  exact (claim6_precondition_errors wExec wNoColScope rfl).2.1
    (.structElem [.vint 1]) [] rfl (by decide)

/-- Witness for C7 on a scope that already carries an error. -/
theorem claim7_skip_on_prior_error_witness :
    wErrScope.err = some (.nonSliceValue "beforeBatchCreateCallback")
    ∧ beforeBatchCreateCallback wHook wErrScope = wErrScope
    ∧ updateTimeStampForBatchCreateCallback 42 wErrScope = wErrScope
    ∧ batchCreateCallback wExec wErrScope = wErrScope
    ∧ batchCreatePipeline wHook 42 wExec wErrScope = wErrScope := by
  have h := claim7_skip_on_prior_error wHook 42 wExec wErrScope
    (.nonSliceValue "beforeBatchCreateCallback") rfl
  exact ⟨rfl, h.1, h.2.1, h.2.2.1, h.2.2.2⟩

/-- Witness for C8 on a non-slice scope value. -/
theorem claim8_non_slice_error_witness :
    wNonSliceScope.err = none
    ∧ beforeBatchCreateCallback wHook wNonSliceScope
        = { wNonSliceScope with
              err := some (.nonSliceValue "beforeBatchCreateCallback") }
    ∧ updateTimeStampForBatchCreateCallback 42 wNonSliceScope
        = { wNonSliceScope with
              err := some (.nonSliceValue "updateTimeStampForBatchCreateCallback") }
    ∧ batchCreateCallback wExec wNonSliceScope
        = { wNonSliceScope with
              err := some (.nonSliceValue "batchCreateCallback") } := by
  have h := claim8_non_slice_error wHook 42 wExec wNonSliceScope rfl rfl
  exact ⟨rfl, h.1, h.2.1, h.2.2⟩

/-- Witness for C9: the trailing-clause sample. -/
theorem claim9_insert_option_witness :
    ([wE0, wE1] : List Element) ≠ []
    ∧ (batchCreateCallback wExec
        { wScope with insertOption := some "ON CONFLICT DO NOTHING" }).sql
        = (batchCreateCallback wExec { wScope with insertOption := none }).sql
          ++ addExtraSpaceIfExist "ON CONFLICT DO NOTHING"
    ∧ (batchCreateCallback wExec { wScope with insertOption := none }).sql
        = "INSERT INTO " ++ wScope.quotedTableName ++ " ("
          ++ String.intercalate ","
              (columnsFromFields (FiledsWithIndexForBatch wScope 0))
          ++ ") VALUES "
          ++ renderValues ((processAllRows wScope.modelStruct
              (existNamesFromFields (FiledsWithIndexForBatch wScope 0))
              [wE0, wE1] wScope.sqlVars.length).2.2) := by
  have h := claim9_insert_option wExec wExec wScope [wE0, wE1]
    "ON CONFLICT DO NOTHING" rfl rfl (by decide) (by decide)
  exact ⟨by decide, h.1, h.2⟩

/-- Witness for C10: a non-slice scope and an out-of-bounds index. -/
theorem claim10_extractor_defensive_witness :
    wNonSliceScope.value = .nonSlice
    ∧ FiledsWithIndexForBatch wNonSliceScope 3 = []
    ∧ ([wE0, wE1] : List Element).length ≤ 5
    ∧ FiledsWithIndexForBatch wScope 5 = [] := by
  exact ⟨rfl, (claim10_extractor_defensive wNonSliceScope 3).1 rfl, by decide,
    (claim10_extractor_defensive wScope 5).2 [wE0, wE1] rfl (by decide)⟩

end BatchCreate
